import Mathlib

/-!
Shallow embedding of the `temprano-watchtower` transaction relay core.

The definitions below are translated from the Rust sources:
`src/models.rs` (data model), `src/db.rs` (store operations, each mirroring
one SQL statement as a pure function on a list of rows), `src/scheduler.rs`
(backoff and the post-broadcast write path), `src/broadcaster.rs`
(per-endpoint classification and aggregation) and `src/watcher.rs`
(receipt / nonce supersession pass).  Timestamps are unix numbers (`Nat`),
byte strings are `List Nat`, machine integers are `Nat`/`Int` with explicit
saturation or truncation where the source saturates or truncates.
-/

namespace Watchtower

/-- `TxStatus` from `models.rs`. -/
inductive TxStatus where
  | queued
  | broadcasting
  | retryScheduled
  | executed
  | expired
  | invalid
  | staleByNonce
  | canceledLocally
deriving DecidableEq, Repr

/-- The terminal statuses of spec §3 invariant I2 / §4.1. -/
def TxStatus.isTerminal : TxStatus → Bool
  | .executed => true
  | .expired => true
  | .invalid => true
  | .staleByNonce => true
  | .canceledLocally => true
  | _ => false

/-- `TxRecord` from `models.rs`: one row of the `txs` table.  Timestamps are
unix numbers, byte vectors are `List Nat`, `receipt` is kept opaque. -/
structure TxRow where
  id : Nat
  chain_id : Nat
  tx_hash : List Nat
  raw_tx : Option (List Nat)
  sender : List Nat
  fee_payer : Option (List Nat)
  nonce_key : List Nat
  nonce : Nat
  valid_after : Option Nat
  valid_before : Option Nat
  eligible_at : Nat
  expires_at : Option Nat
  status : TxStatus
  group_id : Option (List Nat)
  next_action_at : Option Nat
  lease_owner : Option String
  lease_until : Option Nat
  attempts : Nat
  last_error : Option String
  last_broadcast_at : Option Nat
  receipt : Option String
  created_at : Nat
  updated_at : Nat
deriving DecidableEq, Repr

/-- `NewTx` from `models.rs`: the insert payload built by ingress. -/
structure NewTx where
  chain_id : Nat
  tx_hash : List Nat
  raw_tx : List Nat
  sender : List Nat
  fee_payer : Option (List Nat)
  nonce_key : List Nat
  nonce : Nat
  valid_after : Option Nat
  valid_before : Option Nat
  eligible_at : Nat
  expires_at : Option Nat
  status : TxStatus
  group_id : Option (List Nat)
  next_action_at : Nat
deriving DecidableEq, Repr

/-- The store: the `txs` table as a list of rows. -/
abbrev Store := List TxRow

/-- An SQL `UPDATE ... WHERE pred ... RETURNING *`: rewrite every matching
row with `f`, return the new store together with the rewritten rows. -/
def updateWhere (pred : TxRow → Bool) (f : TxRow → TxRow) (s : Store) :
    Store × List TxRow :=
  (s.map fun r => if pred r then f r else r, (s.filter pred).map f)

/-! ### scheduler.rs: backoff -/

/-- `u64::MAX`. -/
def U64MAX : Nat := 2 ^ 64 - 1

/-- `u64` saturating multiplication. -/
def satMulU64 (a b : Nat) : Nat := min (a * b) U64MAX

/-- `1u64 << shift` (wrapping at 64 bits, as the Rust shift does). -/
def shlOneU64 (shift : Nat) : Nat := (1 <<< shift) % (U64MAX + 1)

/-- Rust `Ord::clamp`: panics (here `none`) when `lo > hi`. -/
def rustClamp (x lo hi : Nat) : Option Nat :=
  if hi < lo then none
  else some (if x < lo then lo else if hi < x then hi else x)

/-- `retry_backoff_ms` from `scheduler.rs`:
`shift = attempts.saturating_sub(1).min(10)`,
`delay = min_ms.saturating_mul(1u64 << shift)`,
`delay.clamp(min_ms, max_ms)` (`none` models the clamp panic). -/
def retryBackoffMs (attempts min_ms max_ms : Nat) : Option Nat :=
  let shift := min (attempts - 1) 10
  let delay := satMulU64 min_ms (shlOneU64 shift)
  rustClamp delay min_ms max_ms

/-! ### db.rs: store operations

Each function mirrors one SQL statement of `db.rs`.  The SQL `NOW()` is the
`now` parameter; `SERIAL` ids are assigned as one more than the largest id in
the table. -/

/-- The fresh id handed out by the `SERIAL` column. -/
def freshId (s : Store) : Nat := (s.map (·.id)).foldr Nat.max 0 + 1

/-- The row created by `INSERT INTO txs ...` in `insert_tx`: insert-list
columns from the `NewTx`, the remaining columns at their schema defaults. -/
def rowOfNewTx (now : Nat) (id : Nat) (nt : NewTx) : TxRow :=
  { id := id
    chain_id := nt.chain_id
    tx_hash := nt.tx_hash
    raw_tx := some nt.raw_tx
    sender := nt.sender
    fee_payer := nt.fee_payer
    nonce_key := nt.nonce_key
    nonce := nt.nonce
    valid_after := nt.valid_after
    valid_before := nt.valid_before
    eligible_at := nt.eligible_at
    expires_at := nt.expires_at
    status := nt.status
    group_id := nt.group_id
    next_action_at := some nt.next_action_at
    lease_owner := none
    lease_until := none
    attempts := 0
    last_error := none
    last_broadcast_at := none
    receipt := none
    created_at := now
    updated_at := now }

/-- `insert_tx`: `INSERT ... ON CONFLICT (chain_id, tx_hash) DO NOTHING`
followed by `SELECT * FROM txs WHERE chain_id = $1 AND tx_hash = $2`;
`already_known = rows_affected == 0`.  Returns the new store, the selected
record and the `already_known` flag. -/
def insertTx (now : Nat) (nt : NewTx) (s : Store) : Store × TxRow × Bool :=
  match s.find? (fun r => r.chain_id == nt.chain_id && r.tx_hash == nt.tx_hash) with
  | some existing => (s, existing, true)
  | none =>
      let row := rowOfNewTx now (freshId s) nt
      (s ++ [row], row, false)

/-- `cancel_group`: `UPDATE txs SET status = canceled_locally, raw_tx = NULL,
next_action_at = NULL, lease_owner = NULL, lease_until = NULL, updated_at =
NOW() WHERE sender = $2 AND group_id = $3 RETURNING *`. -/
def cancelGroup (now : Nat) (sender group_id : List Nat) (s : Store) :
    Store × List TxRow :=
  updateWhere
    (fun r => r.sender == sender && r.group_id == some group_id)
    (fun r =>
      { r with
        status := .canceledLocally
        raw_tx := none
        next_action_at := none
        lease_owner := none
        lease_until := none
        updated_at := now })
    s

/-- The `status IN (queued, retry_scheduled, broadcasting)` test shared by
both lease statements. -/
def leasableStatus (st : TxStatus) : Bool :=
  st == .queued || st == .retryScheduled || st == .broadcasting

/-- `next_action_at <= $now` (SQL: `NULL` compares false). -/
def nextActionDue (now : Nat) (r : TxRow) : Bool :=
  match r.next_action_at with
  | some t => t ≤ now
  | none => false

/-- `(lease_until IS NULL OR lease_until < $now)`. -/
def leaseFree (now : Nat) (r : TxRow) : Bool :=
  match r.lease_until with
  | some t => t < now
  | none => true

/-- The `SET` clause shared by both lease statements: status `broadcasting`,
lease fields set, `updated_at = NOW()`. -/
def applyLease (now : Nat) (owner : String) (untilTs : Nat) (r : TxRow) : TxRow :=
  { r with
    status := .broadcasting
    lease_owner := some owner
    lease_until := some untilTs
    updated_at := now }

/-- `lease_tx_by_hash`: conditional `UPDATE ... WHERE chain_id = $4 AND
tx_hash = $5 AND status IN (queued, retry_scheduled, broadcasting) AND
next_action_at <= $9 AND (lease_until IS NULL OR lease_until < $9)
RETURNING *`, fetched optionally. -/
def leaseTxByHash (chain_id : Nat) (tx_hash : List Nat) (now : Nat)
    (owner : String) (untilTs : Nat) (s : Store) : Store × Option TxRow :=
  let (s', returned) :=
    updateWhere
      (fun r =>
        r.chain_id == chain_id && r.tx_hash == tx_hash &&
        leasableStatus r.status && nextActionDue now r && leaseFree now r)
      (applyLease now owner untilTs)
      s
  (s', returned.head?)

/-- Insertion sort by a `Nat` key, standing in for the SQL `ORDER BY`. -/
def sortByKey (key : TxRow → Nat) : List TxRow → List TxRow
  | [] => []
  | r :: rs => insertSorted r (sortByKey key rs)
where
  insertSorted (r : TxRow) : List TxRow → List TxRow
    | [] => [r]
    | x :: xs => if key r ≤ key x then r :: x :: xs else x :: insertSorted r xs

/-- `lease_due_txs`: the `WITH due AS (SELECT id ... ORDER BY next_action_at
ASC LIMIT $6 FOR UPDATE SKIP LOCKED) UPDATE txs ... WHERE id IN (SELECT id
FROM due) RETURNING *` statement, run without concurrent lockers. -/
def leaseDueTxs (chain_id now : Nat) (owner : String) (untilTs : Nat)
    (limit : Nat) (s : Store) : Store × List TxRow :=
  let due :=
    sortByKey (fun r => r.next_action_at.getD 0)
      (s.filter fun r =>
        r.chain_id == chain_id && leasableStatus r.status &&
        nextActionDue now r && leaseFree now r)
  let ids := (due.take limit).map (·.id)
  updateWhere (fun r => ids.contains r.id) (applyLease now owner untilTs) s

/-- `reschedule_tx`: the unfenced `UPDATE txs SET status, next_action_at,
attempts, last_error, last_broadcast_at = NOW(), lease_owner = NULL,
lease_until = NULL, updated_at = NOW() WHERE id = $5`. -/
def rescheduleTx (now : Nat) (id : Nat) (status : TxStatus)
    (next_action_at : Nat) (attempts : Nat) (last_error : Option String)
    (s : Store) : Store :=
  (updateWhere (fun r => r.id == id)
    (fun r =>
      { r with
        status := status
        next_action_at := some next_action_at
        attempts := attempts
        last_error := last_error
        last_broadcast_at := some now
        lease_owner := none
        lease_until := none
        updated_at := now })
    s).1

/-- `reschedule_tx_if_leased`: same `SET` clause as `reschedule_tx` but with
the fence `WHERE id = $5 AND status = broadcasting AND lease_owner = $7`;
returns `rows_affected > 0`. -/
def rescheduleTxIfLeased (now : Nat) (id : Nat) (lease_owner : String)
    (status : TxStatus) (next_action_at : Nat) (attempts : Nat)
    (last_error : Option String) (s : Store) : Store × Bool :=
  let (s', returned) :=
    updateWhere
      (fun r =>
        r.id == id && r.status == .broadcasting &&
        r.lease_owner == some lease_owner)
      (fun r =>
        { r with
          status := status
          next_action_at := some next_action_at
          attempts := attempts
          last_error := last_error
          last_broadcast_at := some now
          lease_owner := none
          lease_until := none
          updated_at := now })
      s
  (s', !returned.isEmpty)

/-- `mark_broadcasted_if_leased`: fenced update that keeps status
`broadcasting` and clears `next_action_at` and the lease. -/
def markBroadcastedIfLeased (now : Nat) (id : Nat) (lease_owner : String)
    (attempts : Nat) (last_error : Option String) (s : Store) :
    Store × Bool :=
  let (s', returned) :=
    updateWhere
      (fun r =>
        r.id == id && r.status == .broadcasting &&
        r.lease_owner == some lease_owner)
      (fun r =>
        { r with
          status := .broadcasting
          next_action_at := none
          attempts := attempts
          last_error := last_error
          last_broadcast_at := some now
          lease_owner := none
          lease_until := none
          updated_at := now })
      s
  (s', !returned.isEmpty)

/-- `mark_terminal`: the unfenced `UPDATE txs SET status, last_error,
next_action_at = NULL, lease_owner = NULL, lease_until = NULL, updated_at =
NOW() WHERE id = $3`. -/
def markTerminal (now : Nat) (id : Nat) (status : TxStatus)
    (last_error : Option String) (s : Store) : Store :=
  (updateWhere (fun r => r.id == id)
    (fun r =>
      { r with
        status := status
        last_error := last_error
        next_action_at := none
        lease_owner := none
        lease_until := none
        updated_at := now })
    s).1

/-- `mark_terminal_if_leased`: `mark_terminal`'s `SET` clause under the
fence `WHERE ... AND status = broadcasting AND lease_owner = $5`. -/
def markTerminalIfLeased (now : Nat) (id : Nat) (lease_owner : String)
    (status : TxStatus) (last_error : Option String) (s : Store) :
    Store × Bool :=
  let (s', returned) :=
    updateWhere
      (fun r =>
        r.id == id && r.status == .broadcasting &&
        r.lease_owner == some lease_owner)
      (fun r =>
        { r with
          status := status
          last_error := last_error
          next_action_at := none
          lease_owner := none
          lease_until := none
          updated_at := now })
      s
  (s', !returned.isEmpty)

/-- `mark_executed`: unfenced terminal write that also stores the receipt. -/
def markExecuted (now : Nat) (id : Nat) (receipt : String) (s : Store) :
    Store :=
  (updateWhere (fun r => r.id == id)
    (fun r =>
      { r with
        status := .executed
        receipt := some receipt
        next_action_at := none
        lease_owner := none
        lease_until := none
        updated_at := now })
    s).1

/-- `mark_expired`. -/
def markExpired (now : Nat) (id : Nat) (s : Store) : Store :=
  markTerminal now id .expired none s

/-- `mark_invalid`. -/
def markInvalid (now : Nat) (id : Nat) (reason : String) (s : Store) : Store :=
  markTerminal now id .invalid (some reason) s

/-- `mark_stale_by_nonce`. -/
def markStaleByNonce (now : Nat) (id : Nat) (s : Store) : Store :=
  markTerminal now id .staleByNonce none s

/-- `recover_stuck_broadcasts`: `UPDATE txs SET status = retry_scheduled,
next_action_at = NOW(), lease_owner = NULL, lease_until = NULL, updated_at =
NOW() WHERE status = broadcasting AND next_action_at IS NULL RETURNING *`. -/
def recoverStuckBroadcasts (now : Nat) (s : Store) : Store × List TxRow :=
  updateWhere
    (fun r => r.status == .broadcasting && r.next_action_at == none)
    (fun r =>
      { r with
        status := .retryScheduled
        next_action_at := some now
        lease_owner := none
        lease_until := none
        updated_at := now })
    s

/-- `list_active_txs`: the non-terminal rows of one chain, ordered by
`next_action_at ASC NULLS LAST, created_at ASC` (the order is irrelevant to
the per-id writes that consume it; the filter is the load-bearing part). -/
def listActiveTxs (chain_id : Nat) (s : Store) : List TxRow :=
  s.filter fun r =>
    r.chain_id == chain_id &&
    (r.status == .queued || r.status == .broadcasting ||
      r.status == .retryScheduled)

/-! ### broadcaster.rs -/

/-- `BroadcastOutcome` from `broadcaster.rs`. -/
inductive BroadcastOutcome where
  | accepted (error : Option String)
  | retry (error : String)
  | invalid (error : String)
deriving DecidableEq, Repr

/-- `ErrorClass` from `broadcaster.rs`. -/
inductive ErrorClass where
  | alreadyKnown
  | invalid
  | retry
deriving DecidableEq, Repr

/-- Rust `str::contains(pat)` as used by `classify_error`. -/
def containsSub (msg pat : String) : Bool :=
  decide (pat.toList <:+: msg.toList)

/-- Rust `str::to_lowercase()` on the ASCII error strings involved:
lowercase character by character. -/
def strToLower (msg : String) : String :=
  String.mk (msg.data.map Char.toLower)

/-- `classify_error` from `broadcaster.rs`: lowercase the message, then test
the already-known substrings, then the invalid substrings, else `Retry`. -/
def classifyError (message : String) : ErrorClass :=
  let msg := strToLower message
  if containsSub msg "already known" || containsSub msg "known transaction" ||
      containsSub msg "already imported" || containsSub msg "already exists" then
    .alreadyKnown
  else if containsSub msg "invalid" || containsSub msg "malformed" ||
      containsSub msg "signature" || containsSub msg "fee payer" ||
      containsSub msg "expired" || containsSub msg "nonce key" then
    .invalid
  else
    .retry

/-- One endpoint's response to `send_raw_transaction` under the timeout:
success, an RPC error message, or an elapsed timeout. -/
inductive EndpointResponse where
  | success
  | rpcError (msg : String)
  | timeout
deriving DecidableEq, Repr

/-- The loop state of `broadcast_raw_tx`: the `accepted` flag and the
`errors` / `invalid_errors` vectors. -/
structure BroadcastAcc where
  accepted : Bool
  errors : List String
  invalidErrors : List String
deriving DecidableEq, Repr

/-- One iteration of the `for idx in 0..fanout` loop of `broadcast_raw_tx`. -/
def broadcastStep (acc : BroadcastAcc) (resp : EndpointResponse) :
    BroadcastAcc :=
  match resp with
  | .success => { acc with accepted := true }
  | .rpcError msg =>
      match classifyError msg with
      | .alreadyKnown => { acc with accepted := true, errors := acc.errors ++ [msg] }
      | .invalid => { acc with invalidErrors := acc.invalidErrors ++ [msg] }
      | .retry => { acc with errors := acc.errors ++ [msg] }
  | .timeout => { acc with errors := acc.errors ++ ["broadcast timeout"] }

/-- The aggregation after the loop of `broadcast_raw_tx`: `Accepted` with
`errors.first`, else `Invalid` with the joined invalid errors, else `Retry`
with the joined errors. -/
def broadcastFinish (acc : BroadcastAcc) : BroadcastOutcome :=
  if acc.accepted then .accepted acc.errors.head?
  else if !acc.invalidErrors.isEmpty then
    .invalid (String.intercalate "; " acc.invalidErrors)
  else .retry (String.intercalate "; " acc.errors)

/-- The loop plus aggregation of `broadcast_raw_tx` over the list of
per-endpoint responses it observed. -/
def aggregateResponses (rs : List EndpointResponse) : BroadcastOutcome :=
  broadcastFinish (rs.foldl broadcastStep ⟨false, [], []⟩)

/-- `broadcast_raw_tx`: the endpoint list is abstracted to its length
`total` plus a response oracle indexed by endpoint position; `attempt` is
the `i32` attempt counter selecting the rotation offset
`start = (attempt.max(0) as usize) % total`, and the effective fan-out is
`fanout.max(1).min(total)`. -/
def broadcastRawTx (total : Nat) (fanout : Nat) (attempt : Int)
    (respond : Nat → EndpointResponse) : BroadcastOutcome :=
  if total == 0 then .retry "no rpc endpoints"
  else
    let fanout' := min (max fanout 1) total
    let start := (max attempt 0).toNat % total
    aggregateResponses
      ((List.range fanout').map fun i => respond ((start + i) % total))

/-! ### scheduler.rs: post-broadcast write path -/

/-- `i32` saturating add of one applied to the non-negative `attempts`. -/
def satAddOneI32 (a : Nat) : Nat := min (a + 1) (2 ^ 31 - 1)

/-- The `expires_at <= now` guard shared by `handle_broadcast` and the
watcher tick (`None` never expires). -/
def expiresDue (now : Nat) (expires_at : Option Nat) : Bool :=
  match expires_at with
  | some e => e ≤ now
  | none => false

/-- `schedule_next_attempt` from `scheduler.rs`: `now + backoff`, pulled
back to `expires_at` when it overshoots (`none` models the clamp panic in
`retry_backoff_ms`). -/
def scheduleNextAttempt (now : Nat) (expires_at : Option Nat)
    (attempts min_ms max_ms : Nat) : Option Nat :=
  (retryBackoffMs attempts min_ms max_ms).map fun delay =>
    let next := now + delay
    match expires_at with
    | some e => if e < next then e else next
    | none => next

/-- The store writes of `handle_broadcast` in `scheduler.rs` for a leased
`record` whose broadcast produced `outcome`: expiry check, missing-`raw_tx`
check, then per outcome the *unfenced* `reschedule_tx` / `mark_invalid`
writes (`none` models the backoff clamp panic). -/
def handleBroadcastWrite (now min_ms max_ms : Nat) (record : TxRow)
    (outcome : BroadcastOutcome) (s : Store) : Option Store :=
  if expiresDue now record.expires_at then
    some (markExpired now record.id s)
  else
    match record.raw_tx with
    | none => some (markInvalid now record.id "missing raw_tx" s)
    | some _ =>
        let attempts := satAddOneI32 record.attempts
        match outcome with
        | .accepted err =>
            (scheduleNextAttempt now record.expires_at attempts min_ms max_ms).map
              fun naa => rescheduleTx now record.id .retryScheduled naa attempts err s
        | .retry err =>
            (scheduleNextAttempt now record.expires_at attempts min_ms max_ms).map
              fun naa =>
                rescheduleTx now record.id .retryScheduled naa attempts (some err) s
        | .invalid err => some (markInvalid now record.id err s)

/-! ### api.rs / watcher.rs: nonce keys and the supersession pass -/

/-- `is_random_nonce_key` from `api.rs`: skip the leading zero bytes, the
rest must spell the ASCII bytes of `random`. -/
def isRandomNonceKey (bytes : List Nat) : Bool :=
  bytes.dropWhile (· == 0) == [0x72, 0x61, 0x6e, 0x64, 0x6f, 0x6d]

/-- Big-endian value of a byte string (`U256::from_be_slice` after zero
padding). -/
def beBytesToNat (bytes : List Nat) : Nat :=
  bytes.foldl (fun acc b => acc * 256 + b) 0

/-- `u256_from_bytes` (identical in `api.rs` and `watcher.rs`): error on
more than 32 bytes, else the big-endian value. -/
def u256FromBytes (bytes : List Nat) : Option Nat :=
  if 32 < bytes.length then none else some (beBytesToNat bytes)

/-- `fetch_current_nonce` from `watcher.rs`: zero key → account nonce via
`get_transaction_count`, any other key → the nonce precompile.  The outer
`Option` is the `anyhow` error, the inner one the `Option<u64>` result.
The chain is abstracted to the two oracles. -/
def watcherFetchCurrentNonce (getTxCount : List Nat → Nat)
    (getNonce : List Nat → List Nat → Nat) (sender nonce_key : List Nat) :
    Option (Option Nat) :=
  match u256FromBytes nonce_key with
  | none => none
  | some v =>
      if v == 0 then some (some (getTxCount sender))
      else some (some (getNonce sender nonce_key))

/-- `fetch_current_nonce` from `api.rs` (the cancel-plan helper): identical
to the watcher's version except that a random nonce key short-circuits to
`Ok(None)` before any chain query. -/
def apiFetchCurrentNonce (getTxCount : List Nat → Nat)
    (getNonce : List Nat → List Nat → Nat) (sender nonce_key : List Nat) :
    Option (Option Nat) :=
  if isRandomNonceKey nonce_key then some none
  else
    match u256FromBytes nonce_key with
    | none => none
    | some v =>
        if v == 0 then some (some (getTxCount sender))
        else some (some (getNonce sender nonce_key))

/-- The expiry / receipt pass of `process_tick_with_chain`: walk the active
records, mark expired or executed rows, collect the still-pending records.
Returns the updated store and the `pending` vector. -/
def watcherFirstPass (now : Nat) (receiptOf : List Nat → Option String) :
    List TxRow → Store → Store × List TxRow
  | [], s => (s, [])
  | record :: rest, s =>
      if expiresDue now record.expires_at then
        watcherFirstPass now receiptOf rest (markExpired now record.id s)
      else
        match receiptOf record.tx_hash with
        | some rc =>
            watcherFirstPass now receiptOf rest (markExecuted now record.id rc s)
        | none =>
            let (s', pending) := watcherFirstPass now receiptOf rest s
            (s', record :: pending)

/-- The nonce supersession pass of `process_tick_with_chain`: for each
`(sender, nonce_key)` group of the pending records, fetch the current nonce
and mark every member with a strictly smaller nonce `stale_by_nonce`.  An
oracle error aborts the remaining groups (the Rust `?`), keeping the writes
made so far. -/
def watcherStalePass (now : Nat) (getTxCount : List Nat → Nat)
    (getNonce : List Nat → List Nat → Nat) (pending : List TxRow) :
    List (List Nat × List Nat) → Store → Store × Bool
  | [], s => (s, true)
  | (sender, nonce_key) :: groups, s =>
      match watcherFetchCurrentNonce getTxCount getNonce sender nonce_key with
      | none => (s, false)
      | some currentNonce =>
          let s' :=
            match currentNonce with
            | some n =>
                (pending.filter fun r =>
                    r.sender == sender && r.nonce_key == nonce_key).foldl
                  (fun acc r => if r.nonce < n then markStaleByNonce now r.id acc else acc)
                  s
            | none => s
          watcherStalePass now getTxCount getNonce pending groups s'

/-- `process_tick_with_chain` from `watcher.rs`, sequentially: list the
active rows, run the expiry / receipt pass, group the survivors by
`(sender, nonce_key)` and run the supersession pass.  The `Bool` is whether
the tick completed without an error. -/
def processTickWithChain (now chain_id : Nat)
    (receiptOf : List Nat → Option String) (getTxCount : List Nat → Nat)
    (getNonce : List Nat → List Nat → Nat) (s : Store) : Store × Bool :=
  let records := listActiveTxs chain_id s
  let (s', pending) := watcherFirstPass now receiptOf records s
  let groups := (pending.map fun r => (r.sender, r.nonce_key)).dedup
  watcherStalePass now getTxCount getNonce pending groups s'

/-! ### Spec-side predicates

These definitions follow the wording of the specification; the theorems
below compare them with the operational definitions above. -/

/-- Spec §4.5: the message mentions a variant of an already-known
rejection (case-insensitively). -/
def MentionsAlreadyKnown (m : String) : Prop :=
  "already known".toList <:+: (strToLower m).toList ∨
  "known transaction".toList <:+: (strToLower m).toList ∨
  "already imported".toList <:+: (strToLower m).toList ∨
  "already exists".toList <:+: (strToLower m).toList

/-- Spec §4.5: the message mentions an invalidity proof
(case-insensitively). -/
def MentionsInvalidity (m : String) : Prop :=
  "invalid".toList <:+: (strToLower m).toList ∨
  "malformed".toList <:+: (strToLower m).toList ∨
  "signature".toList <:+: (strToLower m).toList ∨
  "fee payer".toList <:+: (strToLower m).toList ∨
  "expired".toList <:+: (strToLower m).toList ∨
  "nonce key".toList <:+: (strToLower m).toList

/-- Spec §4.5 aggregation: a response counting as accepted — a success or
an already-known rejection. -/
def respAcceptedLike : EndpointResponse → Bool
  | .success => true
  | .rpcError msg => classifyError msg == .alreadyKnown
  | .timeout => false

/-- Spec §4.5 aggregation: the informational (non-invalid) error string a
response contributes, timeouts as the synthetic `broadcast timeout`. -/
def respInformational : EndpointResponse → Option String
  | .success => none
  | .rpcError msg => if classifyError msg == .invalid then none else some msg
  | .timeout => some "broadcast timeout"

/-- Spec §4.5 aggregation: the invalid error string a response
contributes. -/
def respInvalidMsg : EndpointResponse → Option String
  | .success => none
  | .rpcError msg => if classifyError msg == .invalid then some msg else none
  | .timeout => none

/-- Spec §4.2 acquire-due-by-hash eligibility: status `Queued`,
`RetryScheduled`, or `Broadcasting` with an expired lease, and
`next_action_at ≤ now`. -/
def LeaseEligible (now : Nat) (r : TxRow) : Prop :=
  ((r.status = .queued ∨ r.status = .retryScheduled) ∨
    (r.status = .broadcasting ∧ ∃ t, r.lease_until = some t ∧ t < now)) ∧
  ∃ a, r.next_action_at = some a ∧ a ≤ now

/-- A sample row used by concrete instances: queued, due at `t = 0`,
grouped under `(sender, group_id) = ([0x11], [0x22])`. -/
def baseRow : TxRow :=
  { id := 1
    chain_id := 1
    tx_hash := [0xAA]
    raw_tx := some [0x01]
    sender := [0x11]
    fee_payer := none
    nonce_key := List.replicate 32 0
    nonce := 0
    valid_after := none
    valid_before := none
    eligible_at := 0
    expires_at := none
    status := .queued
    group_id := some [0x22]
    next_action_at := some 0
    lease_owner := none
    lease_until := none
    attempts := 0
    last_error := none
    last_broadcast_at := none
    receipt := none
    created_at := 0
    updated_at := 0 }

/-- A terminal (executed) row in the `([0x11], [0x22])` group. -/
def execRow : TxRow :=
  { baseRow with status := .executed, next_action_at := none, receipt := some "rc" }

/-- A 32-byte nonce key whose non-zero suffix spells the ASCII string
`random`. -/
def randomKey : List Nat :=
  List.replicate 26 0 ++ [0x72, 0x61, 0x6e, 0x64, 0x6f, 0x6d]

/-- A sample insert payload matching `baseRow`'s key. -/
def baseNewTx : NewTx :=
  { chain_id := 1
    tx_hash := [0xAA]
    raw_tx := [0x01]
    sender := [0x11]
    fee_payer := none
    nonce_key := List.replicate 32 0
    nonce := 0
    valid_after := none
    valid_before := none
    eligible_at := 0
    expires_at := none
    status := .queued
    group_id := some [0x22]
    next_action_at := 0 }

/-! ### Theorems -/

/-- The shift in `retry_backoff_ms` never wraps: `1u64 << shift` with
`shift ≤ 10` is `2 ^ shift`. -/
theorem shlOneU64_small (shift : Nat) (h : shift ≤ 10) :
    shlOneU64 shift = 2 ^ shift := by
  have hlt : 2 ^ shift < U64MAX + 1 := by
    have : (2 : Nat) ^ shift ≤ 2 ^ 10 := Nat.pow_le_pow_right (by omega) h
    simp only [U64MAX]
    omega
  simp [shlOneU64, Nat.shiftLeft_eq, Nat.mod_eq_of_lt hlt]

/-- C5: for every `min_ms ≤ max_ms` (both `u64` values) and every attempt
count `k`, `retry_backoff_ms` returns exactly
`clamp(min_ms * 2^min(k-1,10), min_ms, max_ms)` computed with saturating
`u64` multiplication, and returns `min_ms` for `k ∈ {0, 1}`. -/
theorem retryBackoffMs_eq_spec_clamp (min_ms max_ms k : Nat)
    (hu : min_ms ≤ U64MAX) (hle : min_ms ≤ max_ms) :
    retryBackoffMs k min_ms max_ms =
      some (max min_ms
        (min (min (min_ms * 2 ^ (min (k - 1) 10)) U64MAX) max_ms)) ∧
    (k = 0 ∨ k = 1 → retryBackoffMs k min_ms max_ms = some min_ms) := by
  have hsh : min (k - 1) 10 ≤ 10 := min_le_right _ _
  have hnp : ¬ max_ms < min_ms := by omega
  have hmain : retryBackoffMs k min_ms max_ms =
      some (max min_ms
        (min (min (min_ms * 2 ^ (min (k - 1) 10)) U64MAX) max_ms)) := by
    unfold retryBackoffMs rustClamp satMulU64
    simp only [shlOneU64_small _ hsh, hnp, if_false]
    congr 1
    split_ifs <;> omega
  refine ⟨hmain, ?_⟩
  rintro (rfl | rfl) <;>
  · rw [hmain]
    congr 1
    simp only [Nat.zero_sub, Nat.sub_self, Nat.zero_min, pow_zero, Nat.mul_one]
    omega

/-- Witness for the backoff theorem at `min = 250`, `max = 5000`,
`k = 3`. -/
theorem retryBackoffMs_eq_spec_clamp_witness :
    retryBackoffMs 3 250 5000 =
      some (max 250
        (min (min (250 * 2 ^ (min (3 - 1) 10)) U64MAX) 5000)) :=
  (retryBackoffMs_eq_spec_clamp 250 5000 3 (by decide) (by decide)).1

/-- C10: `retry_backoff_ms` panics (returns `none`) exactly when
`min_ms > max_ms`; under the precondition `min_ms ≤ max_ms` it always
returns a value in `[min_ms, max_ms]`. -/
theorem retryBackoffMs_total_iff (k min_ms max_ms : Nat) :
    (retryBackoffMs k min_ms max_ms = none ↔ max_ms < min_ms) ∧
    (min_ms ≤ max_ms →
      ∃ r, retryBackoffMs k min_ms max_ms = some r ∧
        min_ms ≤ r ∧ r ≤ max_ms) := by
  constructor
  · unfold retryBackoffMs rustClamp
    split <;> simp_all
  · intro hle
    unfold retryBackoffMs rustClamp
    have hnp : ¬ max_ms < min_ms := by omega
    simp only [hnp, if_false]
    refine ⟨_, rfl, ?_, ?_⟩ <;> (split <;> try split) <;> omega

/-- Witness for the backoff totality theorem at `min = 250`,
`max = 5000`, `k = 20`. -/
theorem retryBackoffMs_total_iff_witness :
    ∃ r, retryBackoffMs 20 250 5000 = some r ∧ 250 ≤ r ∧ r ≤ 5000 :=
  (retryBackoffMs_total_iff 20 250 5000).2 (by decide)

/-- C9: `classify_error` yields `AlreadyKnown` exactly when the lowercased
message mentions one of the already-known variants, `Invalid` exactly when
it does not but mentions one of the invalidity markers, and `Retry`
otherwise; the synthetic timeout message classifies as `Retry`. -/
theorem classifyError_characterization (m : String) :
    (classifyError m = .alreadyKnown ↔ MentionsAlreadyKnown m) ∧
    (classifyError m = .invalid ↔ ¬ MentionsAlreadyKnown m ∧ MentionsInvalidity m) ∧
    (classifyError m = .retry ↔ ¬ MentionsAlreadyKnown m ∧ ¬ MentionsInvalidity m) ∧
    classifyError "broadcast timeout" = .retry := by
  have hA : (containsSub (strToLower m) "already known" ||
      containsSub (strToLower m) "known transaction" ||
      containsSub (strToLower m) "already imported" ||
      containsSub (strToLower m) "already exists") = true ↔
      MentionsAlreadyKnown m := by
    simp [containsSub, MentionsAlreadyKnown, or_assoc]
  have hI : (containsSub (strToLower m) "invalid" ||
      containsSub (strToLower m) "malformed" ||
      containsSub (strToLower m) "signature" ||
      containsSub (strToLower m) "fee payer" ||
      containsSub (strToLower m) "expired" ||
      containsSub (strToLower m) "nonce key") = true ↔
      MentionsInvalidity m := by
    simp [containsSub, MentionsInvalidity, or_assoc]
  cases hAv : (containsSub (strToLower m) "already known" ||
      containsSub (strToLower m) "known transaction" ||
      containsSub (strToLower m) "already imported" ||
      containsSub (strToLower m) "already exists") <;>
  cases hBv : (containsSub (strToLower m) "invalid" ||
      containsSub (strToLower m) "malformed" ||
      containsSub (strToLower m) "signature" ||
      containsSub (strToLower m) "fee payer" ||
      containsSub (strToLower m) "expired" ||
      containsSub (strToLower m) "nonce key") <;>
  · rw [hAv] at hA
    rw [hBv] at hI
    refine ⟨?_, ?_, ?_, by decide⟩ <;>
      simp [classifyError, hAv, hBv, ← hA, ← hI]

/-- C8: the startup recovery pass rewrites exactly the rows with status
`Broadcasting` and `next_action_at = NULL` — setting `RetryScheduled`,
`next_action_at = now` and clearing the lease — returns exactly those rows,
and leaves every other row unchanged. -/
theorem recoverStuckBroadcasts_characterization (now : Nat) (s : Store) :
    (∀ i : Nat,
      ((recoverStuckBroadcasts now s).1)[i]? =
        (s[i]?).map fun r =>
          if r.status = .broadcasting ∧ r.next_action_at = none then
            { r with
              status := .retryScheduled
              next_action_at := some now
              lease_owner := none
              lease_until := none
              updated_at := now }
          else r) ∧
    (recoverStuckBroadcasts now s).2 =
      (s.filter fun r => decide (r.status = .broadcasting ∧ r.next_action_at = none)).map
        fun r =>
          { r with
            status := .retryScheduled
            next_action_at := some now
            lease_owner := none
            lease_until := none
            updated_at := now } := by
  have hpred : ∀ r : TxRow,
      (r.status == TxStatus.broadcasting && r.next_action_at == none) =
        decide (r.status = .broadcasting ∧ r.next_action_at = none) := by
    intro r
    rw [Bool.eq_iff_iff]
    simp [Bool.and_eq_true, beq_iff_eq, decide_eq_true_iff]
  constructor
  · intro i
    simp only [recoverStuckBroadcasts, updateWhere, List.getElem?_map]
    cases s[i]? with
    | none => rfl
    | some r =>
        simp only [Option.map_some']
        by_cases h : r.status = .broadcasting ∧ r.next_action_at = none
        · rw [if_pos h, if_pos]
          rw [hpred r]
          simpa using h
        · rw [if_neg h, if_neg]
          rw [hpred r]
          simpa using h
  · simp only [recoverStuckBroadcasts, updateWhere]
    congr 1
    exact List.filter_congr fun r _ => hpred r

/-- C7: inserting the same `(chain_id, tx_hash)` twice into a store that
does not yet hold that key yields `already_known = false` then `true`, the
second call leaves the store unchanged, and both calls return the same
record. -/
theorem insertTx_idempotent (nt nt' : NewTx) (s : Store) (now now' : Nat)
    (hc : nt'.chain_id = nt.chain_id) (hh : nt'.tx_hash = nt.tx_hash)
    (hnew : ∀ r ∈ s, ¬(r.chain_id = nt.chain_id ∧ r.tx_hash = nt.tx_hash)) :
    (insertTx now nt s).2.2 = false ∧
    (insertTx now' nt' (insertTx now nt s).1).2.2 = true ∧
    (insertTx now' nt' (insertTx now nt s).1).1 = (insertTx now nt s).1 ∧
    (insertTx now' nt' (insertTx now nt s).1).2.1 = (insertTx now nt s).2.1 := by
  have hfind : s.find? (fun r => r.chain_id == nt.chain_id && r.tx_hash == nt.tx_hash)
      = none := by
    rw [List.find?_eq_none]
    intro r hr
    have := hnew r hr
    simp only [Bool.and_eq_true, beq_iff_eq]
    tauto
  have hfind' : s.find? (fun r => r.chain_id == nt'.chain_id && r.tx_hash == nt'.tx_hash)
      = none := by
    rw [hc, hh]
    exact hfind
  have h1 : insertTx now nt s =
      (s ++ [rowOfNewTx now (freshId s) nt], rowOfNewTx now (freshId s) nt, false) := by
    simp [insertTx, hfind]
  have hrow : ((rowOfNewTx now (freshId s) nt).chain_id == nt'.chain_id &&
      (rowOfNewTx now (freshId s) nt).tx_hash == nt'.tx_hash) = true := by
    simp [rowOfNewTx, hc, hh]
  have h2 : (s ++ [rowOfNewTx now (freshId s) nt]).find?
      (fun r => r.chain_id == nt'.chain_id && r.tx_hash == nt'.tx_hash)
      = some (rowOfNewTx now (freshId s) nt) := by
    rw [List.find?_append, hfind']
    simp [hrow]
  rw [h1]
  simp [insertTx, h2]

/-- Witness for the insert idempotence theorem: two inserts of the sample
payload into the empty store. -/
theorem insertTx_idempotent_witness :
    (insertTx 3 baseNewTx []).2.2 = false ∧
    (insertTx 7 baseNewTx (insertTx 3 baseNewTx []).1).2.2 = true ∧
    (insertTx 7 baseNewTx (insertTx 3 baseNewTx []).1).1 = (insertTx 3 baseNewTx []).1 ∧
    (insertTx 7 baseNewTx (insertTx 3 baseNewTx []).1).2.1 =
      (insertTx 3 baseNewTx []).2.1 :=
  insertTx_idempotent baseNewTx baseNewTx [] 3 7 rfl rfl (by simp)

/-- The loop state of `broadcast_raw_tx` after consuming `rs`, in closed
form: the accepted flag, the informational errors and the invalid errors
collected in order. -/
theorem broadcast_foldl_closed (rs : List EndpointResponse) (acc : BroadcastAcc) :
    rs.foldl broadcastStep acc =
      { accepted := acc.accepted || rs.any respAcceptedLike
        errors := acc.errors ++ rs.filterMap respInformational
        invalidErrors := acc.invalidErrors ++ rs.filterMap respInvalidMsg } := by
  induction rs generalizing acc with
  | nil => simp
  | cons resp rest ih =>
      rw [List.foldl_cons, ih]
      cases resp with
      | success => simp [broadcastStep, respAcceptedLike, respInformational, respInvalidMsg]
      | timeout => simp [broadcastStep, respAcceptedLike, respInformational, respInvalidMsg]
      | rpcError msg =>
          have hIK : (ErrorClass.invalid == ErrorClass.alreadyKnown) = false := by decide
          have hRK : (ErrorClass.retry == ErrorClass.alreadyKnown) = false := by decide
          cases hcl : classifyError msg <;>
            simp [broadcastStep, respAcceptedLike, respInformational, respInvalidMsg,
              hcl, Bool.or_assoc, hIK, hRK]

/-- C4: the broadcaster's aggregation — `Accepted` with the first collected
informational (non-invalid) error string if any response was a success or
an already-known rejection; otherwise `Invalid` with the joined invalid
texts if any response classified invalid; otherwise `Retry` with the joined
retryable texts; and the empty endpoint list yields
`Retry "no rpc endpoints"`. -/
theorem broadcastRawTx_aggregation :
    (∀ rs : List EndpointResponse,
      aggregateResponses rs =
        if rs.any respAcceptedLike then
          .accepted (rs.filterMap respInformational).head?
        else if (rs.filterMap respInvalidMsg) = [] then
          .retry (String.intercalate "; " (rs.filterMap respInformational))
        else
          .invalid (String.intercalate "; " (rs.filterMap respInvalidMsg))) ∧
    (∀ fanout attempt respond,
      broadcastRawTx 0 fanout attempt respond = .retry "no rpc endpoints") ∧
    (∀ total fanout attempt respond, 0 < total →
      broadcastRawTx total fanout attempt respond =
        aggregateResponses
          ((List.range (min (max fanout 1) total)).map fun i =>
            respond (((max attempt 0).toNat % total + i) % total))) := by
  refine ⟨?_, ?_, ?_⟩
  · intro rs
    unfold aggregateResponses
    rw [broadcast_foldl_closed]
    unfold broadcastFinish
    simp only [List.nil_append, Bool.false_or]
    by_cases ha : rs.any respAcceptedLike
    · simp [ha]
    · by_cases hi : rs.filterMap respInvalidMsg = []
      · simp [ha, hi]
      · simp [ha, hi, List.isEmpty_iff]
  · intro fanout attempt respond
    simp [broadcastRawTx]
  · intro total fanout attempt respond htot
    have : (total == 0) = false := by
      simp only [beq_eq_false_iff_ne, ne_eq]
      omega
    simp [broadcastRawTx, this]

/-- Witness for the aggregation theorem: two endpoints, fan-out 1, the
first endpoint succeeds. -/
theorem broadcastRawTx_aggregation_witness :
    broadcastRawTx 2 1 0 (fun _ => .success) =
      aggregateResponses
        ((List.range (min (max 1 1) 2)).map fun i =>
          (fun _ => EndpointResponse.success) (((max (0 : Int) 0).toNat % 2 + i) % 2)) :=
  broadcastRawTx_aggregation.2.2 2 1 0 (fun _ => .success) (by decide)

/-- C6: under the lease invariants (a lease exists only while
`Broadcasting`, and a `Broadcasting` row carries one), acquire-by-hash
transitions the row to `Broadcasting` with the lease fields set and returns
it exactly when the row is `Queued`, `RetryScheduled`, or `Broadcasting`
with an expired lease, and `next_action_at ≤ now`; otherwise it returns
nothing and leaves the row unchanged. -/
theorem leaseTxByHash_characterization (r : TxRow) (now : Nat)
    (owner : String) (untilTs : Nat)
    (h1 : r.status ≠ .broadcasting → r.lease_until = none)
    (h2 : r.status = .broadcasting → r.lease_until ≠ none) :
    (LeaseEligible now r →
      leaseTxByHash r.chain_id r.tx_hash now owner untilTs [r] =
        ([{ r with
             status := .broadcasting
             lease_owner := some owner
             lease_until := some untilTs
             updated_at := now }],
         some { r with
             status := .broadcasting
             lease_owner := some owner
             lease_until := some untilTs
             updated_at := now })) ∧
    (¬ LeaseEligible now r →
      leaseTxByHash r.chain_id r.tx_hash now owner untilTs [r] = ([r], none)) := by
  have hpred :
      (leasableStatus r.status && nextActionDue now r && leaseFree now r) = true ↔
        LeaseEligible now r := by
    unfold LeaseEligible leasableStatus nextActionDue leaseFree
    cases hst : r.status <;> cases hna : r.next_action_at <;>
      cases hlu : r.lease_until <;> simp_all <;> tauto
  constructor
  · intro hel
    have hp := hpred.mpr hel
    have hcond : (r.chain_id == r.chain_id && r.tx_hash == r.tx_hash &&
        leasableStatus r.status && nextActionDue now r && leaseFree now r) = true := by
      simp only [beq_self_eq_true, Bool.true_and]
      exact hp
    unfold leaseTxByHash updateWhere
    simp only [List.map_cons, List.map_nil, List.filter_cons, List.filter_nil]
    simp only [hcond]
    simp [applyLease]
  · intro hel
    have hp : (leasableStatus r.status && nextActionDue now r && leaseFree now r) = false := by
      cases hb : (leasableStatus r.status && nextActionDue now r && leaseFree now r)
      · rfl
      · exact absurd (hpred.mp hb) hel
    have hcond : (r.chain_id == r.chain_id && r.tx_hash == r.tx_hash &&
        leasableStatus r.status && nextActionDue now r && leaseFree now r) = false := by
      simp only [beq_self_eq_true, Bool.true_and]
      exact hp
    unfold leaseTxByHash updateWhere
    simp only [List.map_cons, List.map_nil, List.filter_cons, List.filter_nil]
    simp only [hcond]
    simp

/-- Witness for the lease characterization: the sample queued row, due at
`now = 5`. -/
theorem leaseTxByHash_characterization_witness :
    leaseTxByHash baseRow.chain_id baseRow.tx_hash 5 "w" 30 [baseRow] =
      ([{ baseRow with
           status := .broadcasting
           lease_owner := some "w"
           lease_until := some 30
           updated_at := 5 }],
       some { baseRow with
           status := .broadcasting
           lease_owner := some "w"
           lease_until := some 30
           updated_at := 5 }) :=
  (leaseTxByHash_characterization baseRow 5 "w" 30 (fun _ => rfl)
      (fun h => absurd h (by decide))).1
    ⟨Or.inl (Or.inl rfl), 0, rfl, by omega⟩

/-- Membership is preserved by the insertion step of `sortByKey`. -/
theorem mem_insertSorted (key : TxRow → Nat) (r a : TxRow) (l : List TxRow) :
    a ∈ sortByKey.insertSorted key r l ↔ a = r ∨ a ∈ l := by
  induction l with
  | nil => simp [sortByKey.insertSorted]
  | cons x xs ih =>
      unfold sortByKey.insertSorted
      split
      · simp [List.mem_cons]
      · simp only [List.mem_cons, ih]
        tauto

/-- `sortByKey` is a permutation as far as membership is concerned. -/
theorem mem_sortByKey (key : TxRow → Nat) (a : TxRow) (l : List TxRow) :
    a ∈ sortByKey key l ↔ a ∈ l := by
  induction l with
  | nil => simp [sortByKey]
  | cons x xs ih =>
      unfold sortByKey
      rw [mem_insertSorted]
      simp [ih]

/-- C2 (amended): a row in a terminal status is untouched by every
status-guarded store operation — insert, lease-by-hash, batch lease, the
fenced reschedule / broadcast-mark / terminal-mark, and recovery — but
`cancel_group` is an exception: it rewrites every row matching
`(sender, group_id)`, terminal rows included, to `CanceledLocally`. -/
theorem terminal_preserved_except_cancel (s : Store) (i : Nat) (r : TxRow)
    (hr : s[i]? = some r) (hterm : r.status.isTerminal = true)
    (hids : (s.map (·.id)).Nodup) :
    (∀ now nt, ((insertTx now nt s).1)[i]? = some r) ∧
    (∀ chain hash now owner untilTs,
      ((leaseTxByHash chain hash now owner untilTs s).1)[i]? = some r) ∧
    (∀ chain now owner untilTs limit,
      ((leaseDueTxs chain now owner untilTs limit s).1)[i]? = some r) ∧
    (∀ now id owner st naa att err,
      ((rescheduleTxIfLeased now id owner st naa att err s).1)[i]? = some r) ∧
    (∀ now id owner att err,
      ((markBroadcastedIfLeased now id owner att err s).1)[i]? = some r) ∧
    (∀ now id owner st err,
      ((markTerminalIfLeased now id owner st err s).1)[i]? = some r) ∧
    (∀ now, ((recoverStuckBroadcasts now s).1)[i]? = some r) ∧
    (∀ now gid, r.group_id = some gid →
      (((cancelGroup now r.sender gid s).1)[i]?).map (·.status) =
        some .canceledLocally) := by
  have hmem : r ∈ s := List.getElem?_mem hr
  have hlt : i < s.length := (List.getElem?_eq_some.mp hr).1
  have hleas : leasableStatus r.status = false := by
    cases h : r.status <;> simp_all [TxStatus.isTerminal, leasableStatus]
  have hbNe : (r.status == TxStatus.broadcasting) = false := by
    cases h : r.status <;> simp_all [TxStatus.isTerminal]
  refine ⟨?_, ?_, ?_, ?_, ?_, ?_, ?_, ?_⟩
  · intro now nt
    unfold insertTx
    cases hf : s.find? fun x => x.chain_id == nt.chain_id && x.tx_hash == nt.tx_hash
    · simp only
      rw [List.getElem?_append, if_pos hlt]
      exact hr
    · simpa using hr
  · intro chain hash now owner untilTs
    simp only [leaseTxByHash, updateWhere, List.getElem?_map, hr, Option.map_some']
    rw [if_neg]
    simp [hleas]
  · intro chain now owner untilTs limit
    simp only [leaseDueTxs, updateWhere, List.getElem?_map, hr, Option.map_some']
    rw [if_neg]
    intro hcontains
    rw [List.elem_iff] at hcontains
    rw [List.mem_map] at hcontains
    obtain ⟨r', hr'take, hid⟩ := hcontains
    have hr'due := List.mem_of_mem_take hr'take
    rw [mem_sortByKey] at hr'due
    have hr'mem := List.mem_of_mem_filter hr'due
    have hr'pred := List.of_mem_filter hr'due
    have : r' = r :=
      List.inj_on_of_nodup_map hids hr'mem hmem hid
    subst this
    simp only [Bool.and_eq_true] at hr'pred
    exact absurd hr'pred.1.1.2 (by simp [hleas])
  · intro now id owner st naa att err
    simp only [rescheduleTxIfLeased, updateWhere, List.getElem?_map, hr, Option.map_some']
    rw [if_neg]
    simp [hbNe]
  · intro now id owner att err
    simp only [markBroadcastedIfLeased, updateWhere, List.getElem?_map, hr, Option.map_some']
    rw [if_neg]
    simp [hbNe]
  · intro now id owner st err
    simp only [markTerminalIfLeased, updateWhere, List.getElem?_map, hr, Option.map_some']
    rw [if_neg]
    simp [hbNe]
  · intro now
    simp only [recoverStuckBroadcasts, updateWhere, List.getElem?_map, hr, Option.map_some']
    rw [if_neg]
    simp [hbNe]
  · intro now gid hgid
    simp only [cancelGroup, updateWhere, List.getElem?_map, hr, Option.map_some']
    rw [if_pos]
    simp [hgid]

/-- Witness for the amended terminal-absorption theorem: cancelling the
group of a store holding one executed row rewrites it to
`CanceledLocally`. -/
theorem terminal_preserved_except_cancel_witness :
    (((cancelGroup 5 execRow.sender [0x22] [execRow]).1)[0]?).map (·.status) =
      some TxStatus.canceledLocally :=
  ((terminal_preserved_except_cancel [execRow] 0 execRow rfl (by decide)
      (by decide)).2.2.2.2.2.2.2) 5 [0x22] rfl

/-- Counterexample to C2 as stated: `cancel_group` moves an `Executed`
(terminal) row to `CanceledLocally`. -/
theorem cancelGroup_overwrites_terminal :
    execRow.status = TxStatus.executed ∧
    TxStatus.isTerminal execRow.status = true ∧
    ((cancelGroup 5 [0x11] [0x22] [execRow]).1.map (·.status)) =
      [TxStatus.canceledLocally] := by decide

/-- C1: the scheduler's post-broadcast write on an `Accepted` outcome goes
through the unfenced `reschedule_tx` — on a row whose lease was overtaken
(here: already `Executed`) it still rewrites the status to
`RetryScheduled`, whereas the fenced `reschedule_tx_if_leased` (present in
`db.rs` but never called by the scheduler) leaves the row unchanged and
reports that the fence did not hold. -/
theorem handleBroadcast_write_is_unfenced :
    (handleBroadcastWrite 10 250 5000
        { baseRow with
            status := .broadcasting
            lease_owner := some "A"
            lease_until := some 100 }
        (.accepted none) [execRow]).map (List.map (·.status)) =
      some [TxStatus.retryScheduled] ∧
    rescheduleTxIfLeased 10 1 "A" .retryScheduled 260 1 none [execRow] =
      ([execRow], false) := by decide

/-- C3: the watcher's nonce pass has no random-key exemption — on a group
whose 32-byte key's non-zero suffix spells `random`, the watcher's
`fetch_current_nonce` still queries the nonce precompile (while the api's
own `fetch_current_nonce` returns nothing for the same key), and a tick
with observed nonce 1 marks the group's nonce-0 row `StaleByNonce`. -/
theorem watcher_superseded_random_key_row :
    isRandomNonceKey randomKey = true ∧
    apiFetchCurrentNonce (fun _ => 0) (fun _ _ => 1) [0x11] randomKey =
      some none ∧
    watcherFetchCurrentNonce (fun _ => 0) (fun _ _ => 1) [0x11] randomKey =
      some (some 1) ∧
    ((processTickWithChain 10 1 (fun _ => none) (fun _ => 0) (fun _ _ => 1)
        [{ baseRow with
             nonce_key := randomKey
             status := .retryScheduled }]).1.map (·.status)) =
      [TxStatus.staleByNonce] := by decide

end Watchtower
